import Mathlib

/-!
Verification of the extraction-and-packaging pipeline of the
web-to-kindle bot (src/web_scraper.py, src/epub_converter.py).

The Python code is shallowly embedded: network fetches, the parsed DOM,
the filesystem and Python's `hash` become explicit inputs (oracles /
pre-parsed document structures), and every pure computation of the
source (string munging, the heuristic fallback chains, the image
localization loop, the book assembly) is translated function by
function.  All strings are assumed ASCII, which covers every literal
the source compares against.
-/

/-! ### Python string primitives

Direct models of the Python `str` methods that the source uses.
All work on `String.data` (lists of characters) so that the kernel
can evaluate them on concrete inputs.
-/

/-- Python `str.lower()` (ASCII). -/
def pyLower (s : String) : String := String.mk (s.data.map Char.toLower)

/-- Occurrence test on character lists: does `p` occur inside `s`? -/
def listOccurs (s p : List Char) : Bool :=
  (List.range (s.length + 1)).any (fun i => p.isPrefixOf (s.drop i))

/-- Python `p in s` substring test. -/
def pyContains (s p : String) : Bool := listOccurs s.data p.data

/-- Python `s.startswith(p)`. -/
def pyStartsWith (s p : String) : Bool := p.data.isPrefixOf s.data

/-- Python `s.endswith(p)`. -/
def pyEndsWith (s p : String) : Bool := p.data.isSuffixOf s.data

/-- Strip leading and trailing whitespace from a character list. -/
def stripL (l : List Char) : List Char :=
  ((l.dropWhile Char.isWhitespace).reverse.dropWhile Char.isWhitespace).reverse

/-- Python `s.strip()`. -/
def pyStrip (s : String) : String := String.mk (stripL s.data)

/-- Fuel-based worker for `pySplit`; fuel bounds the number of examined
characters so the recursion is structural and kernel-reducible. -/
def splitAux : Nat → List Char → List Char → List Char → List (List Char)
  | 0, s, _, acc => [acc.reverse ++ s]
  | fuel+1, s, pat, acc =>
    match s with
    | [] => [acc.reverse]
    | c :: rest =>
      if !pat.isEmpty && pat.isPrefixOf (c :: rest) then
        acc.reverse :: splitAux fuel ((c :: rest).drop pat.length) pat []
      else splitAux fuel rest pat (c :: acc)

/-- Python `s.split(pat)` for a non-empty separator `pat`. -/
def pySplit (s pat : String) : List String :=
  (splitAux (s.data.length + 1) s.data pat.data []).map String.mk

/-- Fuel-based worker for `pyReplace`. -/
def replaceAux : Nat → List Char → List Char → List Char → List Char
  | 0, s, _, _ => s
  | fuel+1, s, pat, rep =>
    match s with
    | [] => []
    | c :: rest =>
      if !pat.isEmpty && pat.isPrefixOf (c :: rest) then
        rep ++ replaceAux fuel ((c :: rest).drop pat.length) pat rep
      else c :: replaceAux fuel rest pat rep

/-- Python `s.replace(pat, rep)` (all occurrences, left to right) for a
non-empty `pat`. -/
def pyReplace (s pat rep : String) : String :=
  String.mk (replaceAux (s.data.length + 1) s.data pat.data rep.data)

/-- Worker for `pyTitle`; the flag records whether the previous character
was a letter (Python's word-boundary rule for `str.title()`). -/
def titleAux : Bool → List Char → List Char
  | _, [] => []
  | prev, c :: rest =>
    if c.isAlpha then
      (if prev then c.toLower else c.toUpper) :: titleAux true rest
    else c :: titleAux false rest

/-- Python `s.title()` (ASCII). -/
def pyTitle (s : String) : String := String.mk (titleAux false s.data)

/-- Python truthiness of an optional string: `None` and `""` are falsy. -/
def pyTruthy : Option String → Bool
  | none => false
  | some s => s != ""

/-! ### Source classifier (`is_substack_site`, src/web_scraper.py lines 31-79)

The HTTP probe that the function performs is an input: either a
response (status code and page text) or a raised exception.  `urlparse`
is modelled by passing the parsed path and hostname alongside the raw
URL string (urlparse lowercases the hostname itself).
-/

/-- Outcome of the classifier's verification probe (`requests.get`):
either a response or a raised exception. -/
inductive ProbeResult where
  | resp (status : Nat) (text : String)
  | exn
deriving DecidableEq

/-- The fields of `urlparse(url)` that `is_substack_site` reads. -/
structure ParsedUrl where
  path : String
  hostname : Option String
deriving DecidableEq

/-- The fixed indicator substrings searched for in the probed HTML. -/
def substackIndicators : List String :=
  ["substack", "generator\" content=\"substack", "substack-app", "substackcdn.com"]

/-- Embedding of `is_substack_site` (src/web_scraper.py lines 31-79):
URL-substring check first, then the `/p/` path marker with an HTML
probe, then the probe-exception fallback gated on the hostname. -/
def is_substack_site (url : String) (parsed : ParsedUrl) (probe : ProbeResult) : Bool :=
  if pyContains (pyLower url) "substack.com" then true
  else
    let path := pyLower parsed.path
    if pyContains path "/p/" then
      match probe with
      | .resp status text =>
        if status == 200 then
          substackIndicators.any (fun ind => pyContains (pyLower text) ind)
        else false
      | .exn =>
        match parsed.hostname with
        | some h => !(pyEndsWith h ".gov" || pyEndsWith h ".edu") && pyContains path "/p/"
        | none => false
    else false

/-- The classifier decision exactly as claim C10 words it.  In the
probe-exception branch the claim requires only that "the hostname does
not end in `.gov` or `.edu`", which is vacuously satisfied when the URL
has no hostname at all. -/
def claimedClassifier (url : String) (parsed : ParsedUrl) (probe : ProbeResult) : Bool :=
  if pyContains (pyLower url) "substack.com" then true
  else if pyContains (pyLower parsed.path) "/p/" then
    match probe with
    | .resp status text =>
      (status == 200) && substackIndicators.any (fun ind => pyContains (pyLower text) ind)
    | .exn =>
      match parsed.hostname with
      | some h => !(pyEndsWith h ".gov" || pyEndsWith h ".edu")
      | none => true
  else false

/-- Claim C10 amended: in the probe-exception branch the URL must also
actually have a hostname; with no hostname the classifier returns
generic. -/
def amendedClassifier (url : String) (parsed : ParsedUrl) (probe : ProbeResult) : Bool :=
  if pyContains (pyLower url) "substack.com" then true
  else if pyContains (pyLower parsed.path) "/p/" then
    match probe with
    | .resp status text =>
      (status == 200) && substackIndicators.any (fun ind => pyContains (pyLower text) ind)
    | .exn =>
      match parsed.hostname with
      | some h => !(pyEndsWith h ".gov" || pyEndsWith h ".edu")
      | none => false
  else false

/-! ### Structured extractor (`get_substack_content`, src/web_scraper.py lines 161-307)

The parsed page is embedded as a `SubstackDoc`: the separately queried
metadata (`og:site_name` meta content, the `<title>` text, the author
profile card) plus a flat list of the document's elements in document
order.  Each element carries its tag, its class tokens, the class
tokens of its ancestors (document-wide for `find_parent`, and
restricted to ancestors inside the `<article>` element for the
sanitizer's `article_content.select`), its text, and whether it lies
inside the `<article>` element.  `Content` of the resulting article is
the list of surviving in-article elements in document order (the code
serializes them to an HTML string).
-/

/-- One element of the parsed document, in document order. -/
structure Node where
  tag : String
  classes : List String
  ancestors : List (List String)
  articleAncestors : List (List String)
  inArticle : Bool
  text : String
deriving DecidableEq

/-- The parts of the parsed Substack page that `get_substack_content`
queries.  `authorCard` is the text of the link inside the first
`div.profile-hover-card-target` (the embedding assumes the card, when
present, contains its link); `ogSiteName` is the `content` attribute of
the `og:site_name` meta tag (`none` when the tag or the attribute is
absent); `titleTag` is the text of the `<title>` element. -/
structure SubstackDoc where
  nodes : List Node
  hasArticle : Bool
  authorCard : Option String
  ogSiteName : Option String
  titleTag : Option String
deriving DecidableEq

/-- Publication method 1 (lines 195-199): the `og:site_name` content,
stripped, taken only when the attribute value is truthy. -/
def ogCandidate (doc : SubstackDoc) : Option String :=
  match doc.ogSiteName with
  | some c => if c != "" then some (pyStrip c) else none
  | none => none

/-- Publication method 2 (lines 201-209): subdomain derivation from the
URL hostname. -/
def subdomainCandidate (hostname : Option String) : Option String :=
  match hostname with
  | some h =>
    if pyEndsWith h ".substack.com" && h != "substack.com" then
      some (pyTitle (pyReplace (pyReplace h ".substack.com" "") "-" " "))
    else none
  | none => none

/-- The class-name keywords of publication method 3 (line 215). -/
def headerKeywords : List String := ["publication", "header", "title", "name", "brand"]

/-- The article-title words excluded by publication method 3 (line 220). -/
def articleWords : List String := ["how", "why", "what", "the art", "a guide"]

/-- The class filter of `find_all(['h1','h2','h3'], class_=...)`:
some class token contains one of the keywords (lowercased). -/
def headerClassMatches (classes : List String) : Bool :=
  classes.any (fun c => headerKeywords.any (fun k => pyContains (pyLower c) k))

/-- Worker for publication method 3 (lines 211-223): scan headings whose
class hints at branding; take the first whose stripped text is short
and avoids common article-title words. -/
def headerCandidateAux : List Node → Option String
  | [] => none
  | n :: rest =>
    if (n.tag == "h1" || n.tag == "h2" || n.tag == "h3") && headerClassMatches n.classes then
      let text := pyStrip n.text
      if text.length < 50 && !(articleWords.any (fun w => pyContains (pyLower text) w)) then
        some text
      else headerCandidateAux rest
    else headerCandidateAux rest

/-- Publication method 3 over the document's elements. -/
def headerCandidate (doc : SubstackDoc) : Option String := headerCandidateAux doc.nodes

/-- Publication method 4 (lines 225-238): split the `<title>` text on
`" | "` and take the trailing segment unless it is a generic term. -/
def titleCandidate (doc : SubstackDoc) : Option String :=
  match doc.titleTag with
  | some titleText =>
    if pyContains titleText " | " then
      let parts := pySplit titleText " | "
      if parts.length ≥ 2 then
        let potential := pyStrip (parts.getLastD "")
        if !(["substack", "blog", "newsletter"].contains (pyLower potential)) then
          some potential
        else none
      else none
    else none
  | none => none

/-- One `if not publication:` guard of the resolution chain (lines 202,
212, 226): a later method runs only while the current value is falsy
(`None` or `""`), and leaves the current value alone when its own
candidate is absent. -/
def fallbackStep (cur cand : Option String) : Option String :=
  if pyTruthy cur then cur
  else
    match cand with
    | some v => some v
    | none => cur

/-- Publication resolution (lines 192-238): method 1 (og:site_name),
then methods 2-4 each behind its `if not publication:` guard. -/
def resolvePublication (doc : SubstackDoc) (hostname : Option String) : Option String :=
  fallbackStep
    (fallbackStep
      (fallbackStep (ogCandidate doc) (subdomainCandidate hostname))
      (headerCandidate doc))
    (titleCandidate doc)

/-- First truthy (non-`None`, non-empty) value of a candidate list; the
ordered-fallback reading of the claim "first non-empty wins". -/
def firstTruthy : List (Option String) → Option String
  | [] => none
  | c :: rest => if pyTruthy c then c else firstTruthy rest

/-- Author resolution (lines 188-190). -/
def resolvedAuthor (doc : SubstackDoc) : String :=
  match doc.authorCard with
  | some s => pyStrip s
  | none => "Unknown Author"

/-- A title heading qualifies when it is an `h1` with no ancestor whose
class tokens include `pc-display-flex` (lines 241-244). -/
def h1Qualifies (n : Node) : Bool :=
  n.tag == "h1" && !(n.ancestors.any (fun cls => cls.contains "pc-display-flex"))

/-- The synthesized author heading `<h4>By {author}</h4>` (lines 248-249);
inserted as a sibling of the title heading, so it shares its ancestors. -/
def authorLineNode (h1 : Node) (author : String) : Node :=
  { tag := "h4", classes := [], ancestors := h1.ancestors,
    articleAncestors := h1.articleAncestors, inArticle := h1.inArticle,
    text := "By " ++ author }

/-- The synthesized publication heading `<h5>From: {publication}</h5>`
(lines 255-257). -/
def pubLineNode (h1 : Node) (publication : String) : Node :=
  { tag := "h5", classes := [], ancestors := h1.ancestors,
    articleAncestors := h1.articleAncestors, inArticle := h1.inArticle,
    text := "From: " ++ publication }

/-- The synthesized `<hr>` separator (lines 250-251). -/
def hrNode (h1 : Node) : Node :=
  { tag := "hr", classes := [], ancestors := h1.ancestors,
    articleAncestors := h1.articleAncestors, inArticle := h1.inArticle,
    text := "" }

/-- The nodes inserted directly after the title heading.  The code calls
`insert_after` with the separator, then the publication heading (when
the publication is truthy), then the author heading, so the resulting
document order is author line, publication line, separator
(lines 247-263). -/
def insertAfterTitle (h1 : Node) (author : String) (publication : Option String) : List Node :=
  if pyTruthy publication then
    [authorLineNode h1 author, pubLineNode h1 (publication.getD ""), hrNode h1]
  else
    [authorLineNode h1 author, hrNode h1]

/-- Title loop (lines 240-264): find the first qualifying `h1`, take its
stripped text as the title, and splice the synthesized metadata nodes
directly after it; stop at the first hit (`break`). -/
def titleLoopAux (author : String) (publication : Option String) : List Node → Option String × List Node
  | [] => (none, [])
  | n :: rest =>
    if h1Qualifies n then
      (some (pyStrip n.text), n :: (insertAfterTitle n author publication ++ rest))
    else
      let r := titleLoopAux author publication rest
      (r.1, n :: r.2)

/-- The sanitizer's selector list
`.pc-display-flex, .button-wrapper, .modal, .popup` (lines 269-270). -/
def chromeSelectors : List String := ["pc-display-flex", "button-wrapper", "modal", "popup"]

/-- Does some class token of an element match one of the sanitizer's
selectors? -/
def selectorHit (classes : List String) : Bool :=
  classes.any (fun c => chromeSelectors.contains c)

/-- A node survives into `Content` when it is inside the article and
neither it nor one of its in-article ancestors matches a sanitizer
selector (`decompose` removes matches and their subtrees, lines
268-271); `Content` is the serialization of the article element. -/
def keepNode (n : Node) : Bool :=
  n.inArticle && !(selectorHit n.classes || n.articleAncestors.any selectorHit)

/-- The in-article nodes that survive sanitization, in document order. -/
def contentNodes (nodes : List Node) : List Node := nodes.filter keepNode

/-- The canonical extraction result (class `Article`,
src/web_scraper.py lines 16-28), with `Content` kept structured. -/
structure Article where
  URL : String
  Title : String
  Author : String
  Published_At : String
  Content : List Node
  Publication : Option String
deriving DecidableEq

/-- Outcome of the extractor's page fetch: a parsed successful response,
or a `requests.RequestException` (transport error or the
`raise_for_status` of a non-2xx response). -/
inductive FetchOutcome where
  | ok (doc : SubstackDoc)
  | reqError (msg : String)
deriving DecidableEq

/-- Embedding of `get_substack_content` (lines 161-307).  `now` stands
for `datetime.now().isoformat()`, `hostname` for
`urlparse(url).hostname`.  A `RequestException` is re-raised as
`Error fetching content: ...`; a missing `<article>` raises
`Could not find article content`, which the function's own generic
`except` clause re-wraps into `Error processing content: ...`
(lines 299-307).  The debug-snapshot file write is side-effect only and
is not modelled. -/
def get_substack_content (url : String) (hostname : Option String) (now : String)
    (fetch : FetchOutcome) : Except String Article :=
  match fetch with
  | .reqError msg => .error ("Error fetching content: " ++ msg)
  | .ok doc =>
    if doc.hasArticle then
      let author := resolvedAuthor doc
      let publication := resolvePublication doc hostname
      let r := titleLoopAux author publication doc.nodes
      let title := match r.1 with
        | some t => if t == "" then "Unknown Title" else t
        | none => "Unknown Title"
      .ok { URL := url, Title := title, Author := author, Published_At := now,
            Content := contentNodes r.2, Publication := publication }
    else
      .error "Error processing content: Could not find article content"

/-! ### EPUB converter (src/epub_converter.py)

Image fetches, Python's `hash`, and the `write_epub`/`read_epub` calls
are oracles.  The HTML content handed to the converter is embedded as
its list of `<img>` elements in document order (`soup.find_all('img')`);
the rest of the markup is untouched by `process_images`.
-/

/-- An `<img>` element: its `src` attribute, if any. -/
structure ImgTag where
  src : Option String
deriving DecidableEq

/-- Outcome of one image fetch (`requests.get`): a response with status,
`content-type` header (when present) and body bytes, or a raised
exception.  Bodies are abstracted as strings. -/
inductive ImgFetchResult where
  | resp (status : Nat) (contentType : Option String) (body : String)
  | exn
deriving DecidableEq

/-- The fixed content-type-to-extension table of `download_image`
(lines 32-37). -/
def extMap : List (String × String) :=
  [("image/jpeg", ".jpg"), ("image/png", ".png"), ("image/gif", ".gif"),
   ("image/webp", ".webp")]

/-- `ext_map.get(content_type, '.jpg')` (line 38). -/
def lookupExt (ct : String) : String :=
  match extMap.lookup ct with
  | some e => e
  | none => ".jpg"

/-- Filename cleanup (line 42): keep only alphanumerics and `.`, `_`,
`-`. -/
def sanitizeFilename (s : String) : String :=
  String.mk (s.data.filter (fun c => c.isAlphanum || c == '.' || c == '_' || c == '-'))

/-- Embedding of `download_image` (src/epub_converter.py lines 16-56).
`hashF` models Python's `hash` rendered through an f-string.  Returns
the saved image name, the content type and the body on success, `none`
on a non-200 status or a raised exception (the code returns the triple
`None, None, None` there).  The local file write is side-effect only
and is not modelled. -/
def download_image (hashF : String → String) (url : String)
    (result : ImgFetchResult) : Option (String × String × String) :=
  match result with
  | .exn => none
  | .resp status ct body =>
    if status == 200 then
      let contentType := match ct with
        | some c => c
        | none => "image/jpeg"
      let urlParts := pySplit url "/"
      let originalFilename := ((pySplit (urlParts.getLastD "") "?").headD "")
      let originalFilename :=
        if originalFilename == "" || pyStartsWith originalFilename "http" then
          "image_" ++ hashF url ++ lookupExt contentType
        else originalFilename
      let imageName := sanitizeFilename originalFilename
      some (imageName, contentType, body)
    else none

/-- An `epub.EpubImage` as constructed on lines 89-94. -/
structure EpubImage where
  uid : String
  fileName : String
  mediaType : String
  content : String
deriving DecidableEq

/-- Result of `process_images`: the rewritten `<img>` list, the images
added to the book, and the processed/failed counters. -/
structure ProcessResult where
  content : List ImgTag
  images : List EpubImage
  processedCount : Nat
  failedCount : Nat
deriving DecidableEq

/-- Embedding of the `process_images` loop (src/epub_converter.py lines
59-112).  Images are handled one at a time in document order; an image
without a truthy `src` is skipped outright; a successful download with
truthy name, media type and body is attached to the book as
`Images/<name>` and its `src` rewritten to `images/<name>`; everything
else increments the failure counter and leaves the `<img>` untouched. -/
def process_images (hashF : String → String) (fetch : String → ImgFetchResult) :
    List ImgTag → ProcessResult
  | [] => { content := [], images := [], processedCount := 0, failedCount := 0 }
  | img :: rest =>
    let r := process_images hashF fetch rest
    match img.src with
    | some src =>
      if src != "" then
        match download_image hashF src (fetch src) with
        | some (imageName, mediaType, imageContent) =>
          if imageName != "" && mediaType != "" && imageContent != "" then
            { content := { src := some ("images/" ++ imageName) } :: r.content,
              images := { uid := imageName, fileName := "Images/" ++ imageName,
                          mediaType := mediaType, content := imageContent } :: r.images,
              processedCount := r.processedCount + 1,
              failedCount := r.failedCount }
          else
            { content := img :: r.content, images := r.images,
              processedCount := r.processedCount, failedCount := r.failedCount + 1 }
        | none =>
          { content := img :: r.content, images := r.images,
            processedCount := r.processedCount, failedCount := r.failedCount + 1 }
      else
        { content := img :: r.content, images := r.images,
          processedCount := r.processedCount, failedCount := r.failedCount }
    | none =>
      { content := img :: r.content, images := r.images,
        processedCount := r.processedCount, failedCount := r.failedCount }

/-- The assembled package: metadata, the attached image resources and
the single content section (the spine holds only the content section;
the cover code is commented out in the source). -/
structure EpubBook where
  title : String
  author : String
  lang : String
  images : List EpubImage
  content : List ImgTag
deriving DecidableEq

/-- Filesystem/library oracle for `convert_to_epub`: whether
`epub.write_epub` raises (with which message), and what the read-back
verification `epub.read_epub` does (yield an image count, or raise). -/
structure FsOracle where
  writeResult : Option String
  readResult : Except String Nat

/-- `title.lower().replace(' ', '-')[:70]` (line 145). -/
def safeDirname (title : String) : String :=
  String.mk ((pyReplace (pyLower title) " " "-").data.take 70)

/-- The article fields that `convert_to_epub` reads (`article["Title"]`,
`article["Author"]`, `article["Content"]`, lines 130-132), with
`Content` embedded as its `<img>` elements. -/
structure ConvArticle where
  Title : String
  Author : String
  Content : List ImgTag
deriving DecidableEq

/-- Embedding of `convert_to_epub` (src/epub_converter.py lines
115-207).  The function takes exactly one article argument; there is no
preserve-image-links parameter, and `process_images` runs
unconditionally (line 160).  A `write_epub` exception propagates to the
caller; the read-back verification sits inside `try/except`, so a
verification exception is logged and the output path is returned all
the same (lines 180-207; the cleanup of staged image files is
side-effect only and is not modelled).  The returned triple exposes the
output path, the assembled book and the per-conversion failure
counter. -/
def convert_to_epub (hashF : String → String) (fetch : String → ImgFetchResult)
    (fs : FsOracle) (article : ConvArticle) : Except String (String × EpubBook × Nat) :=
  let title := article.Title
  let author := article.Author
  let dirname := safeDirname title
  let pr := process_images hashF fetch article.Content
  let book : EpubBook := { title := title, author := author, lang := "en",
                           images := pr.images, content := pr.content }
  let epubPath := "./epubs/" ++ dirname ++ "/" ++ title ++ ".epub"
  match fs.writeResult with
  | some msg => .error msg
  | none =>
    match fs.readResult with
    | .ok _count => .ok (epubPath, book, pr.failedCount)
    | .error _msg => .ok (epubPath, book, pr.failedCount)

/-- Claim C4's amended naming rule, stated on its own: the local name is
the sanitized final path segment of the image URL with query stripped,
falling back to `image_<hash><ext>` (extension from the content-type
table, default `.jpg`) when that segment is empty or starts with
`http`. -/
def localNameSpec (hashF : String → String) (url contentType : String) : String :=
  let seg := (pySplit (pySplit url "/" |>.getLastD "") "?").headD ""
  if seg == "" || pyStartsWith seg "http" then
    sanitizeFilename ("image_" ++ hashF url ++ lookupExt contentType)
  else
    sanitizeFilename seg

/-! ### Helper lemmas -/

/-- A truthy current value survives a fallback step. -/
theorem fallbackStep_of_truthy (cand : Option String) {cur : Option String}
    (h : pyTruthy cur = true) : fallbackStep cur cand = cur := by
  simp [fallbackStep, h]

/-- A falsy current value is replaced by a present candidate. -/
theorem fallbackStep_replaced (v : String) {cur : Option String}
    (h : pyTruthy cur = false) : fallbackStep cur (some v) = some v := by
  simp [fallbackStep, h]

/-- A falsy current value stays when the candidate is absent. -/
theorem fallbackStep_absent {cur : Option String}
    (h : pyTruthy cur = false) : fallbackStep cur none = cur := by
  simp [fallbackStep, h]

/-- A fallback step over two falsy values stays falsy. -/
theorem pyTruthy_fallbackStep {cur cand : Option String}
    (h1 : pyTruthy cur = false) (h2 : pyTruthy cand = false) :
    pyTruthy (fallbackStep cur cand) = false := by
  cases cand with
  | none => rw [fallbackStep_absent h1]; exact h1
  | some v => rw [fallbackStep_replaced v h1]; exact h2

/-- The title loop leaves a list without a qualifying heading untouched
and reports no title. -/
theorem titleLoopAux_of_none (author : String) (publication : Option String) :
    ∀ l : List Node, (∀ n ∈ l, h1Qualifies n = false) →
      titleLoopAux author publication l = (none, l) := by
  intro l
  induction l with
  | nil => intro _; rfl
  | cons n rest ih =>
    intro h
    have hn : h1Qualifies n = false := h n (List.mem_cons_self n rest)
    have hr := ih (fun m hm => h m (List.mem_cons_of_mem n hm))
    simp [titleLoopAux, hn, hr]

/-- The title loop at the first qualifying heading: it takes that
heading's stripped text and splices the synthesized nodes directly
after the heading. -/
theorem titleLoopAux_found (author : String) (publication : Option String)
    (pre : List Node) (h1 : Node) (suffix : List Node)
    (hpre : ∀ n ∈ pre, h1Qualifies n = false) (hq : h1Qualifies h1 = true) :
    titleLoopAux author publication (pre ++ h1 :: suffix) =
      (some (pyStrip h1.text),
       pre ++ h1 :: (insertAfterTitle h1 author publication ++ suffix)) := by
  induction pre with
  | nil => simp [titleLoopAux, hq]
  | cons n rest ih =>
    have hn : h1Qualifies n = false := hpre n (List.mem_cons_self n rest)
    have hr := ih (fun m hm => hpre m (List.mem_cons_of_mem n hm))
    simp [titleLoopAux, hn, hr]

/-- `contentNodes` distributes over list append. -/
theorem contentNodes_append (a b : List Node) :
    contentNodes (a ++ b) = contentNodes a ++ contentNodes b := by
  simp [contentNodes, List.filter_append]

/-- A heading inside the article that no sanitizer selector reaches is
kept in `Content`. -/
theorem keepNode_of_clean {h1 : Node} (hin : h1.inArticle = true)
    (hcls : selectorHit h1.classes = false)
    (hanc : h1.articleAncestors.any selectorHit = false) :
    keepNode h1 = true := by
  simp [keepNode, hin, hcls, hanc]

/-- The synthesized author line is kept whenever its title heading's
surroundings are clean. -/
theorem keepNode_authorLine {h1 : Node} (author : String) (hin : h1.inArticle = true)
    (hanc : h1.articleAncestors.any selectorHit = false) :
    keepNode (authorLineNode h1 author) = true := by
  simp [keepNode, authorLineNode, selectorHit, hin, hanc]

/-- The synthesized publication line is kept whenever its title
heading's surroundings are clean. -/
theorem keepNode_pubLine {h1 : Node} (publication : String) (hin : h1.inArticle = true)
    (hanc : h1.articleAncestors.any selectorHit = false) :
    keepNode (pubLineNode h1 publication) = true := by
  simp [keepNode, pubLineNode, selectorHit, hin, hanc]

/-- The synthesized separator is kept whenever its title heading's
surroundings are clean. -/
theorem keepNode_hr {h1 : Node} (hin : h1.inArticle = true)
    (hanc : h1.articleAncestors.any selectorHit = false) :
    keepNode (hrNode h1) = true := by
  simp [keepNode, hrNode, selectorHit, hin, hanc]

/-! ### Claim C10 -/

/-- Claim C10, counterexample: for the URL `"/p/x"` (no scheme, so
`urlparse` yields path `/p/x` and no hostname, and the probe raises),
the claim's decision procedure classifies structured — the hostname,
being absent, does not end in `.gov` or `.edu` — but `is_substack_site`
returns generic because its fallback also requires a hostname to be
present. -/
theorem c10_no_hostname_counterexample :
    claimedClassifier "/p/x" ⟨"/p/x", none⟩ ProbeResult.exn = true ∧
    is_substack_site "/p/x" ⟨"/p/x", none⟩ ProbeResult.exn = false := by
  exact ⟨by decide, by decide⟩

/-- Claim C10 amended: the classifier decides exactly as the claim
states, except that the probe-exception fallback additionally requires
the URL to have a hostname; with no hostname it returns generic.
`amendedClassifier` is that amended decision procedure, written from
the claim's words; the code's classifier coincides with it on every
input. -/
theorem c10_classifier_amended (url : String) (parsed : ParsedUrl) (probe : ProbeResult) :
    is_substack_site url parsed probe = amendedClassifier url parsed probe := by
  simp only [is_substack_site, amendedClassifier]
  by_cases h1 : pyContains (pyLower url) "substack.com" = true
  · simp [h1]
  · simp only [Bool.not_eq_true] at h1
    simp only [h1, Bool.false_eq_true, if_false]
    by_cases h2 : pyContains (pyLower parsed.path) "/p/" = true
    · simp only [h2, if_true]
      cases probe with
      | resp status text =>
        by_cases hs : (status == 200) = true
        · simp [hs]
        · simp only [Bool.not_eq_true] at hs
          simp [hs]
      | exn =>
        cases parsed.hostname with
        | none => rfl
        | some h => simp [h2]
    · simp only [Bool.not_eq_true] at h2
      simp [h2]

/-! ### Claim C7 -/

/-- Claim C7, counterexample: for a structured page with no `<article>`
container the extractor's inner `raise Exception("Could not find
article content")` is caught by the function's own generic `except`
clause and re-raised as `Error processing content: Could not find
article content`, so the message the caller receives is not exactly
`Could not find article content`. -/
theorem c7_error_message_counterexample :
    get_substack_content "https://test.substack.com/p/test" none "t0"
        (.ok ⟨[], false, none, none, none⟩) =
      .error "Error processing content: Could not find article content" ∧
    "Error processing content: Could not find article content" ≠
      "Could not find article content" := by
  exact ⟨rfl, by decide⟩

/-- Claim C7 amended: fatal extractor errors reach the caller wrapped
with a stage prefix rather than unchanged: a transport error or non-2xx
surfaces as `Error fetching content: <original message>`, and a
structured page with no content container surfaces as exactly
`Error processing content: Could not find article content`. -/
theorem c7_error_wrapping_amended :
    (∀ (url now : String) (hostname : Option String) (doc : SubstackDoc),
        doc.hasArticle = false →
        get_substack_content url hostname now (.ok doc) =
          .error "Error processing content: Could not find article content") ∧
    (∀ (url now msg : String) (hostname : Option String),
        get_substack_content url hostname now (.reqError msg) =
          .error ("Error fetching content: " ++ msg)) := by
  constructor
  · intro url now hostname doc h
    simp [get_substack_content, h]
  · intro url now msg hostname
    rfl

/-- Witness for the amended claim C7 at a concrete document without an
article container and a concrete transport error. -/
theorem c7_error_wrapping_amended_witness :
    get_substack_content "u" none "t0" (.ok ⟨[], false, none, none, none⟩) =
      .error "Error processing content: Could not find article content" ∧
    get_substack_content "u" none "t0" (.reqError "timeout") =
      .error ("Error fetching content: " ++ "timeout") := by
  exact ⟨c7_error_wrapping_amended.1 "u" "t0" none ⟨[], false, none, none, none⟩ rfl,
         c7_error_wrapping_amended.2 "u" "t0" "timeout" none⟩

/-! ### Claim C8 -/

/-- Claim C8, counterexample: when the post-write read-back verification
raises (`read_epub` fails), `convert_to_epub` does not surface a
packaging error — the exception is caught by the verification's own
`try/except` and the output path is returned normally. -/
theorem c8_verification_swallowed_counterexample :
    convert_to_epub (fun _ => "0") (fun _ => ImgFetchResult.exn)
        ⟨none, Except.error "read failed"⟩ ⟨"T", "A", []⟩ =
      .ok ("./epubs/t/T.epub", ⟨"T", "A", "en", [], []⟩, 0) := by
  rfl

/-- Claim C8 amended: an exception raised while writing the package
propagates to the caller with its message and no output path is
returned (resources already on disk are untouched — no rollback is
attempted anywhere in the function); an exception raised during the
post-write read-back verification, however, is caught and logged, and
the conversion still returns the output path, exactly as if
verification had succeeded. -/
theorem c8_packaging_errors_amended :
    (∀ (hashF : String → String) (fetch : String → ImgFetchResult)
        (msg : String) (rr : Except String Nat) (art : ConvArticle),
        convert_to_epub hashF fetch ⟨some msg, rr⟩ art = .error msg) ∧
    (∀ (hashF : String → String) (fetch : String → ImgFetchResult)
        (msg : String) (art : ConvArticle),
        convert_to_epub hashF fetch ⟨none, .error msg⟩ art =
          convert_to_epub hashF fetch ⟨none, .ok 0⟩ art ∧
        ∃ out, convert_to_epub hashF fetch ⟨none, .error msg⟩ art = .ok out) := by
  constructor
  · intro hashF fetch msg rr art
    rfl
  · intro hashF fetch msg art
    exact ⟨rfl, ⟨_, rfl⟩⟩

/-! ### Claim C9 -/

/-- Claim C9 is the intended design, but the code does not implement
it: `convert_to_epub` accepts no preserve-image-links parameter at all
(its own callers, src/telegram_bot.py line 232 and src/cli.py line 25,
pass one, which raises a `TypeError`), and the resource localizer
`process_images` runs unconditionally.  Evaluated at a concrete
article with one remote image, the converter attaches an
`ImageResource` and rewrites the reference even though the caller's
option should, per the claim, have preserved the remote link. -/
theorem c9_localizer_always_runs :
    (convert_to_epub (fun _ => "0")
        (fun _ => ImgFetchResult.resp 200 (some "image/jpeg") "B")
        ⟨none, Except.ok 1⟩ ⟨"T", "A", [⟨some "http://x.com/a.jpg"⟩]⟩).toOption.map
          (fun r => (r.2.1.images, r.2.1.content.map ImgTag.src)) =
      some ([⟨"a.jpg", "Images/a.jpg", "image/jpeg", "B"⟩], [some "images/a.jpg"]) := by
  decide

/-! ### Claim C1 -/

/-- Claim C1: publication resolution tries og:site_name, subdomain
derivation, the heading heuristic and document-title parsing in that
fixed order, first non-empty (truthy) candidate winning; in particular
a truthy og:site_name value beats any (conflicting) platform subdomain,
and hostname `testpub.substack.com` with no og:site_name resolves to
`Testpub`; the extracted article's `Publication` field is exactly this
resolution. -/
theorem c1_publication_resolution_order :
    (∀ (doc : SubstackDoc) (hostname : Option String) (v : String),
        firstTruthy [ogCandidate doc, subdomainCandidate hostname,
                     headerCandidate doc, titleCandidate doc] = some v →
        resolvePublication doc hostname = some v) ∧
    (∀ (doc : SubstackDoc) (hostname : Option String) (c : String),
        doc.ogSiteName = some c → c ≠ "" → pyStrip c ≠ "" →
        resolvePublication doc hostname = some (pyStrip c)) ∧
    (∀ doc : SubstackDoc, doc.ogSiteName = none →
        resolvePublication doc (some "testpub.substack.com") = some "Testpub") ∧
    (∀ (url now : String) (hostname : Option String) (doc : SubstackDoc),
        doc.hasArticle = true →
        ∃ a, get_substack_content url hostname now (.ok doc) = .ok a ∧
          a.Publication = resolvePublication doc hostname) := by
  refine ⟨?_, ?_, ?_, ?_⟩
  · intro doc hostname v h
    unfold resolvePublication
    cases ht1 : pyTruthy (ogCandidate doc) with
    | true =>
      simp only [firstTruthy, ht1, if_true] at h
      rw [fallbackStep_of_truthy _ ht1, fallbackStep_of_truthy _ ht1,
          fallbackStep_of_truthy _ ht1]
      exact h
    | false =>
      simp only [firstTruthy, ht1, Bool.false_eq_true, if_false] at h
      cases ht2 : pyTruthy (subdomainCandidate hostname) with
      | true =>
        simp only [ht2, if_true] at h
        have h2 : fallbackStep (ogCandidate doc) (subdomainCandidate hostname) = some v := by
          rw [h] at ht2 ⊢
          exact fallbackStep_replaced v ht1
        have ht2' : pyTruthy (fallbackStep (ogCandidate doc) (subdomainCandidate hostname)) = true := by
          rw [h2, ← h]; exact ht2
        rw [fallbackStep_of_truthy _ ht2', fallbackStep_of_truthy _ ht2']
        exact h2
      | false =>
        simp only [ht2, Bool.false_eq_true, if_false] at h
        have hf2 : pyTruthy (fallbackStep (ogCandidate doc) (subdomainCandidate hostname)) = false :=
          pyTruthy_fallbackStep ht1 ht2
        cases ht3 : pyTruthy (headerCandidate doc) with
        | true =>
          simp only [ht3, if_true] at h
          have h3 : fallbackStep (fallbackStep (ogCandidate doc) (subdomainCandidate hostname))
              (headerCandidate doc) = some v := by
            rw [h] at ht3 ⊢
            exact fallbackStep_replaced v hf2
          have ht3' : pyTruthy (fallbackStep (fallbackStep (ogCandidate doc)
              (subdomainCandidate hostname)) (headerCandidate doc)) = true := by
            rw [h3, ← h]; exact ht3
          rw [fallbackStep_of_truthy _ ht3']
          exact h3
        | false =>
          simp only [ht3, Bool.false_eq_true, if_false] at h
          have hf3 : pyTruthy (fallbackStep (fallbackStep (ogCandidate doc)
              (subdomainCandidate hostname)) (headerCandidate doc)) = false :=
            pyTruthy_fallbackStep hf2 ht3
          cases ht4 : pyTruthy (titleCandidate doc) with
          | true =>
            simp only [ht4, if_true] at h
            rw [h] at ht4 ⊢
            exact fallbackStep_replaced v hf3
          | false =>
            simp only [ht4, Bool.false_eq_true, if_false, firstTruthy] at h
            exact Option.noConfusion h
  · intro doc hostname c hog hc hcs
    have h1 : ogCandidate doc = some (pyStrip c) := by
      simp [ogCandidate, hog, bne_iff_ne, hc]
    have ht : pyTruthy (ogCandidate doc) = true := by
      rw [h1]; simp [pyTruthy, bne_iff_ne, hcs]
    unfold resolvePublication
    rw [fallbackStep_of_truthy _ ht, fallbackStep_of_truthy _ ht,
        fallbackStep_of_truthy _ ht]
    exact h1
  · intro doc hog
    have h1 : ogCandidate doc = none := by simp [ogCandidate, hog]
    have hsub : subdomainCandidate (some "testpub.substack.com") = some "Testpub" := by decide
    unfold resolvePublication
    rw [h1, hsub, fallbackStep_replaced "Testpub" (by decide)]
    have ht : pyTruthy (some "Testpub") = true := by decide
    rw [fallbackStep_of_truthy _ ht, fallbackStep_of_truthy _ ht]
  · intro url now hostname doc hart
    unfold get_substack_content
    simp only [hart, if_true]
    exact ⟨_, rfl, rfl⟩

/-- Witness for claim C1 at concrete documents: a document carrying
og:site_name `Win-Win` together with the conflicting subdomain hostname
`aella.substack.com` resolves to `Win-Win` (both through the general
first-truthy characterisation and through the og-wins part), a document
with no og:site_name on hostname `testpub.substack.com` resolves to
`Testpub`, and the extractor's article carries the resolution in its
`Publication` field. -/
theorem c1_publication_resolution_order_witness :
    resolvePublication ⟨[], true, none, some "Win-Win", none⟩ (some "aella.substack.com") =
      some "Win-Win" ∧
    resolvePublication ⟨[], true, none, some "Win-Win", none⟩ (some "aella.substack.com") =
      some (pyStrip "Win-Win") ∧
    resolvePublication ⟨[], true, none, none, none⟩ (some "testpub.substack.com") =
      some "Testpub" ∧
    ∃ a, get_substack_content "u" (some "testpub.substack.com") "t0"
          (.ok ⟨[], true, none, none, none⟩) = .ok a ∧
        a.Publication = resolvePublication ⟨[], true, none, none, none⟩
          (some "testpub.substack.com") := by
  refine ⟨?_, ?_, ?_, ?_⟩
  · exact c1_publication_resolution_order.1 ⟨[], true, none, some "Win-Win", none⟩
      (some "aella.substack.com") "Win-Win" (by decide)
  · exact c1_publication_resolution_order.2.1 ⟨[], true, none, some "Win-Win", none⟩
      (some "aella.substack.com") "Win-Win" rfl (by decide) (by decide)
  · exact c1_publication_resolution_order.2.2.1 ⟨[], true, none, none, none⟩ rfl
  · exact c1_publication_resolution_order.2.2.2 "u" "t0" (some "testpub.substack.com")
      ⟨[], true, none, none, none⟩ rfl

/-! ### Claim C3 -/

/-- Claim C3, counterexample: a conversion whose single image fetch
fails leaves the original remote URL in the final `Content` with no
attached `ImageResource` (and a failure count of 1), so remote URLs do
remain when individual fetches fail. -/
theorem c3_remote_url_remains_counterexample :
    (convert_to_epub (fun _ => "0") (fun _ => ImgFetchResult.exn) ⟨none, Except.ok 0⟩
        ⟨"T", "A", [⟨some "http://x.com/a.jpg"⟩]⟩).toOption.map
          (fun r => (r.2.1.images, r.2.1.content.map ImgTag.src, r.2.2)) =
      some ([], [some "http://x.com/a.jpg"], 1) := by
  decide

/-- Claim C3 amended: after localization, every image reference in the
final `Content` either was rewritten to `images/<name>` — and then an
`ImageResource` named `<name>` (stored as `Images/<name>`) is attached
to the package — or is one of the input references left untouched;
references whose fetch failed (and references with no or empty `src`)
keep their original remote URL, so rewritten references, and only
those, point to localized resources. -/
theorem c3_localization_amended (hashF : String → String) (fetch : String → ImgFetchResult)
    (imgs : List ImgTag) (t : ImgTag)
    (ht : t ∈ (process_images hashF fetch imgs).content) :
    t ∈ imgs ∨
    ∃ name, t.src = some ("images/" ++ name) ∧
      ∃ im ∈ (process_images hashF fetch imgs).images,
        im.uid = name ∧ im.fileName = "Images/" ++ name := by
  induction imgs with
  | nil =>
    simp [process_images] at ht
  | cons img rest ih =>
    cases hsrc : img.src with
    | none =>
      simp only [process_images, hsrc] at ht ⊢
      rcases List.mem_cons.mp ht with h | h
      · exact Or.inl (List.mem_cons.mpr (Or.inl h))
      · rcases ih h with h' | ⟨name, hname, im, him, hu, hf⟩
        · exact Or.inl (List.mem_cons_of_mem _ h')
        · exact Or.inr ⟨name, hname, im, him, hu, hf⟩
    | some src =>
      by_cases hst : (src != "") = true
      · cases hdl : download_image hashF src (fetch src) with
        | none =>
          simp only [process_images, hsrc, hst, if_true, hdl] at ht ⊢
          rcases List.mem_cons.mp ht with h | h
          · exact Or.inl (List.mem_cons.mpr (Or.inl h))
          · rcases ih h with h' | ⟨name, hname, im, him, hu, hf⟩
            · exact Or.inl (List.mem_cons_of_mem _ h')
            · exact Or.inr ⟨name, hname, im, him, hu, hf⟩
        | some triple =>
          obtain ⟨n, m, b⟩ := triple
          by_cases htr : (n != "" && m != "" && b != "") = true
          · simp only [process_images, hsrc, hst, if_true, hdl, htr] at ht ⊢
            rcases List.mem_cons.mp ht with h | h
            · refine Or.inr ⟨n, by simp [h], ⟨n, "Images/" ++ n, m, b⟩, ?_, rfl, rfl⟩
              exact List.mem_cons_self _ _
            · rcases ih h with h' | ⟨name, hname, im, him, hu, hf⟩
              · exact Or.inl (List.mem_cons_of_mem _ h')
              · exact Or.inr ⟨name, hname, im, List.mem_cons_of_mem _ him, hu, hf⟩
          · simp only [Bool.not_eq_true] at htr
            simp only [process_images, hsrc, hst, if_true, hdl, htr, Bool.false_eq_true,
              if_false] at ht ⊢
            rcases List.mem_cons.mp ht with h | h
            · exact Or.inl (List.mem_cons.mpr (Or.inl h))
            · rcases ih h with h' | ⟨name, hname, im, him, hu, hf⟩
              · exact Or.inl (List.mem_cons_of_mem _ h')
              · exact Or.inr ⟨name, hname, im, him, hu, hf⟩
      · simp only [Bool.not_eq_true] at hst
        simp only [process_images, hsrc, hst, Bool.false_eq_true, if_false] at ht ⊢
        rcases List.mem_cons.mp ht with h | h
        · exact Or.inl (List.mem_cons.mpr (Or.inl h))
        · rcases ih h with h' | ⟨name, hname, im, him, hu, hf⟩
          · exact Or.inl (List.mem_cons_of_mem _ h')
          · exact Or.inr ⟨name, hname, im, him, hu, hf⟩

/-- Witness for the amended claim C3 at a concrete conversion: one
image localized successfully, its rewritten reference resolving to the
attached resource. -/
theorem c3_localization_amended_witness :
    (⟨some "images/a.jpg"⟩ : ImgTag) ∈ [(⟨some "http://x.com/a.jpg"⟩ : ImgTag)] ∨
    ∃ name, (ImgTag.mk (some "images/a.jpg")).src = some ("images/" ++ name) ∧
      ∃ im ∈ (process_images (fun _ => "0")
          (fun _ => ImgFetchResult.resp 200 (some "image/jpeg") "B")
          [⟨some "http://x.com/a.jpg"⟩]).images,
        im.uid = name ∧ im.fileName = "Images/" ++ name := by
  exact c3_localization_amended (fun _ => "0")
    (fun _ => ImgFetchResult.resp 200 (some "image/jpeg") "B")
    [⟨some "http://x.com/a.jpg"⟩] ⟨some "images/a.jpg"⟩ (by decide)

/-! ### Claim C4 -/

/-- Claim C4, counterexample: two image URLs from different hosts that
share the final path segment `pic.jpg` both localize to the name
`pic.jpg`, so the same package holds two `ImageResource`s with the same
local name — the name carries no title fragment and no index, and
uniqueness is not guaranteed. -/
theorem c4_duplicate_localname_counterexample :
    (process_images (fun _ => "0") (fun _ => ImgFetchResult.resp 200 (some "image/jpeg") "B")
        [⟨some "http://a.com/pic.jpg"⟩, ⟨some "http://b.com/pic.jpg"⟩]).images.map
          EpubImage.uid = ["pic.jpg", "pic.jpg"] ∧
    "http://a.com/pic.jpg" ≠ "http://b.com/pic.jpg" := by
  exact ⟨by decide, by decide⟩

/-- Claim C4 amended: the local name of a successfully downloaded image
is not built from the article title and a document-order index; it is
the sanitized final path segment of the image URL with the query
stripped, falling back to `image_<hash(url)><ext>` — extension from the
fixed content-type table, default `.jpg` — when that segment is empty
or starts with `http` (so distinct URLs sharing a final segment yield
duplicate local names). -/
theorem c4_localname_amended (hashF : String → String) (url : String)
    (res : ImgFetchResult) (name mt body : String)
    (h : download_image hashF url res = some (name, mt, body)) :
    name = localNameSpec hashF url mt := by
  cases res with
  | exn => exact Option.noConfusion h
  | resp status ct bd =>
    by_cases hs : (status == 200) = true
    · simp only [download_image, hs, if_true, Option.some.injEq, Prod.mk.injEq] at h
      obtain ⟨h1, h2, h3⟩ := h
      subst h2
      rw [← h1]
      simp only [localNameSpec]
      cases hC : (((pySplit ((pySplit url "/").getLastD "") "?").headD "" == "") ||
          pyStartsWith ((pySplit ((pySplit url "/").getLastD "") "?").headD "") "http") with
      | true => rfl
      | false => rfl
    · simp only [Bool.not_eq_true] at hs
      simp only [download_image, hs, Bool.false_eq_true, if_false] at h
      exact Option.noConfusion h

/-- Witness for the amended claim C4 at a concrete download: the image
at `http://x.com/pic.jpg` (content type `image/png`) localizes to
`pic.jpg`, the sanitized final URL segment. -/
theorem c4_localname_amended_witness :
    "pic.jpg" = localNameSpec (fun _ => "0") "http://x.com/pic.jpg" "image/png" := by
  exact c4_localname_amended (fun _ => "0") "http://x.com/pic.jpg"
    (ImgFetchResult.resp 200 (some "image/png") "B") "pic.jpg" "image/png" "B" (by decide)

/-! ### Claim C5 -/

/-- Claim C5: an individual failed image fetch never aborts the
conversion — for a `Content` with three image references whose second
fetch fails while the first and third download successfully, the
package is still produced, it embeds exactly two `ImageResource`s, and
the per-conversion failure counter equals 1. -/
theorem c5_partial_failure (hashF : String → String) (fetch : String → ImgFetchResult)
    (u1 u2 u3 n1 m1 b1 n3 m3 b3 title author : String) (rr : Except String Nat)
    (h1 : download_image hashF u1 (fetch u1) = some (n1, m1, b1))
    (h2 : download_image hashF u2 (fetch u2) = none)
    (h3 : download_image hashF u3 (fetch u3) = some (n3, m3, b3))
    (hn1 : n1 ≠ "") (hm1 : m1 ≠ "") (hb1 : b1 ≠ "")
    (hn3 : n3 ≠ "") (hm3 : m3 ≠ "") (hb3 : b3 ≠ "")
    (hu1 : u1 ≠ "") (hu2 : u2 ≠ "") (hu3 : u3 ≠ "") :
    ∃ path book,
      convert_to_epub hashF fetch ⟨none, rr⟩
          ⟨title, author, [⟨some u1⟩, ⟨some u2⟩, ⟨some u3⟩]⟩ = .ok (path, book, 1) ∧
      book.images.length = 2 := by
  have e : process_images hashF fetch [⟨some u1⟩, ⟨some u2⟩, ⟨some u3⟩] =
      { content := [⟨some ("images/" ++ n1)⟩, ⟨some u2⟩, ⟨some ("images/" ++ n3)⟩],
        images := [⟨n1, "Images/" ++ n1, m1, b1⟩, ⟨n3, "Images/" ++ n3, m3, b3⟩],
        processedCount := 2, failedCount := 1 } := by
    simp [process_images, h1, h2, h3, bne_iff_ne, hu1, hu2, hu3, hn1, hm1, hb1, hn3, hm3, hb3]
  refine ⟨"./epubs/" ++ safeDirname title ++ "/" ++ title ++ ".epub",
          ⟨title, author, "en",
           [⟨n1, "Images/" ++ n1, m1, b1⟩, ⟨n3, "Images/" ++ n3, m3, b3⟩],
           [⟨some ("images/" ++ n1)⟩, ⟨some u2⟩, ⟨some ("images/" ++ n3)⟩]⟩, ?_, rfl⟩
  unfold convert_to_epub
  rw [e]
  cases rr with
  | ok n => rfl
  | error s => rfl

/-- Witness for claim C5 at a concrete conversion: images `1.jpg` and
`3.png` download, the second fetch raises, the package embeds two
resources and reports one failure. -/
theorem c5_partial_failure_witness :
    ∃ path book,
      convert_to_epub (fun _ => "0")
          (fun u => if u == "http://a/1.jpg" then ImgFetchResult.resp 200 (some "image/jpeg") "B1"
            else if u == "http://a/2.jpg" then ImgFetchResult.exn
            else ImgFetchResult.resp 200 (some "image/png") "B3")
          ⟨none, Except.ok 2⟩
          ⟨"T", "A", [⟨some "http://a/1.jpg"⟩, ⟨some "http://a/2.jpg"⟩,
                      ⟨some "http://a/3.png"⟩]⟩ = .ok (path, book, 1) ∧
      book.images.length = 2 := by
  exact c5_partial_failure (fun _ => "0")
    (fun u => if u == "http://a/1.jpg" then ImgFetchResult.resp 200 (some "image/jpeg") "B1"
      else if u == "http://a/2.jpg" then ImgFetchResult.exn
      else ImgFetchResult.resp 200 (some "image/png") "B3")
    "http://a/1.jpg" "http://a/2.jpg" "http://a/3.png"
    "1.jpg" "image/jpeg" "B1" "3.png" "image/png" "B3" "T" "A" (Except.ok 2)
    (by decide) (by decide) (by decide)
    (by decide) (by decide) (by decide) (by decide) (by decide) (by decide)
    (by decide) (by decide) (by decide)

/-! ### Claim C2 -/

/-- Claim C2, counterexample: for a document whose article holds one
qualifying heading `T`, author `A` and og:site_name `Pub`, the
synthesized lines follow the title in the order author line (`h4`),
publication line (`h5`), separator (`hr`): the element immediately
after the title is the author line, not the publication line the claim
puts there (the code calls `insert_after` with the separator first and
the author heading last, which reverses the call order in the
document). -/
theorem c2_insertion_order_counterexample :
    (get_substack_content "u" none "t0"
        (.ok ⟨[⟨"h1", [], [], [], true, "T"⟩], true, some "A", some "Pub", none⟩)).toOption.map
        (fun a => a.Content.map (fun n => (n.tag, n.text))) =
      some [("h1", "T"), ("h4", "By A"), ("h5", "From: Pub"), ("hr", "")] ∧
    ("h4", "By A") ≠ ("h5", "From: Pub") := by
  exact ⟨by decide, by decide⟩

/-- Claim C2 amended: whenever a qualifying title heading is found, the
synthesized metadata lines appear in the resulting `Content`
immediately after the title in this document order: title, then the
author line, then the publication line (when a publication resolved
truthy), then the horizontal separator — provided the heading sits
inside the article and neither it nor its surroundings are removed by
the sanitizer. -/
theorem c2_metadata_insertion_amended (url now : String) (hostname : Option String)
    (doc : SubstackDoc) (pre : List Node) (h1 : Node) (suffix : List Node)
    (hart : doc.hasArticle = true)
    (hnodes : doc.nodes = pre ++ h1 :: suffix)
    (hpre : ∀ n ∈ pre, h1Qualifies n = false)
    (hq : h1Qualifies h1 = true)
    (hin : h1.inArticle = true)
    (hcls : selectorHit h1.classes = false)
    (hanc : h1.articleAncestors.any selectorHit = false) :
    ∃ a, get_substack_content url hostname now (.ok doc) = .ok a ∧
      a.Content = contentNodes pre ++ h1 ::
        ((if pyTruthy (resolvePublication doc hostname) then
            [authorLineNode h1 (resolvedAuthor doc),
             pubLineNode h1 ((resolvePublication doc hostname).getD ""),
             hrNode h1]
          else
            [authorLineNode h1 (resolvedAuthor doc), hrNode h1]) ++ contentNodes suffix) := by
  unfold get_substack_content
  simp only [hart, if_true]
  refine ⟨_, rfl, ?_⟩
  simp only [hnodes, titleLoopAux_found _ _ _ _ _ hpre hq]
  rw [contentNodes_append]
  congr 1
  have hk1 : keepNode h1 = true := keepNode_of_clean hin hcls hanc
  have hka : keepNode (authorLineNode h1 (resolvedAuthor doc)) = true :=
    keepNode_authorLine _ hin hanc
  have hkp : keepNode (pubLineNode h1 ((resolvePublication doc hostname).getD "")) = true :=
    keepNode_pubLine _ hin hanc
  have hkh : keepNode (hrNode h1) = true := keepNode_hr hin hanc
  cases hp : pyTruthy (resolvePublication doc hostname) with
  | true =>
    simp only [contentNodes, insertAfterTitle, hp, if_true, List.filter_append,
      List.filter_cons, hk1, hka, hkp, hkh]
    simp
  | false =>
    simp only [contentNodes, insertAfterTitle, hp, Bool.false_eq_true, if_false,
      List.filter_append, List.filter_cons, hk1, hka, hkh]
    simp

/-- The concrete document of the claim-C2 witness. -/
def c2doc : SubstackDoc :=
  ⟨[⟨"h1", [], [], [], true, "T"⟩], true, some "A", some "Pub", none⟩

/-- The qualifying heading of the claim-C2 witness document. -/
def c2h1 : Node := ⟨"h1", [], [], [], true, "T"⟩

/-- Witness for the amended claim C2 at the concrete one-heading
document. -/
theorem c2_metadata_insertion_amended_witness :
    ∃ a, get_substack_content "u" none "t0" (.ok c2doc) = .ok a ∧
      a.Content = contentNodes [] ++ c2h1 ::
        ((if pyTruthy (resolvePublication c2doc none) then
            [authorLineNode c2h1 (resolvedAuthor c2doc),
             pubLineNode c2h1 ((resolvePublication c2doc none).getD ""),
             hrNode c2h1]
          else
            [authorLineNode c2h1 (resolvedAuthor c2doc), hrNode c2h1]) ++ contentNodes []) := by
  exact c2_metadata_insertion_amended "u" "t0" none c2doc [] c2h1 [] rfl rfl
    (by simp) (by decide) rfl (by decide) (by decide)

/-! ### Claim C6 -/

/-- Claim C6, counterexample: a document whose only (qualifying,
outside-the-wrapper) heading has whitespace-only text gets `Title =
"Unknown Title"`, not that heading's (empty) stripped text: the `if not
title:` fallback also fires on an empty title even though a heading
outside the chrome wrapper exists. -/
theorem c6_empty_heading_counterexample :
    (get_substack_content "u" none "t0"
        (.ok ⟨[⟨"h1", [], [], [], true, "  "⟩], true, none, none, none⟩)).toOption.map
        Article.Title = some "Unknown Title" ∧
    h1Qualifies ⟨"h1", [], [], [], true, "  "⟩ = true ∧
    pyStrip "  " = "" ∧
    "Unknown Title" ≠ "" := by
  exact ⟨by decide, by decide, by decide, by decide⟩

/-- Claim C6 amended: the selected `Title` is the stripped text of the
first top-level heading in document order not nested inside the chrome
wrapper class, except that when that text is empty the title also falls
back to `Unknown Title`; and for every document with no qualifying
heading (including when the only heading sits inside the wrapper),
`Title = "Unknown Title"`. -/
theorem c6_title_resolution_amended :
    (∀ (url now : String) (hostname : Option String) (doc : SubstackDoc),
        doc.hasArticle = true →
        (∀ n ∈ doc.nodes, h1Qualifies n = false) →
        ∃ a, get_substack_content url hostname now (.ok doc) = .ok a ∧
          a.Title = "Unknown Title") ∧
    (∀ (url now : String) (hostname : Option String) (doc : SubstackDoc)
        (pre : List Node) (h1 : Node) (suffix : List Node),
        doc.hasArticle = true →
        doc.nodes = pre ++ h1 :: suffix →
        (∀ n ∈ pre, h1Qualifies n = false) →
        h1Qualifies h1 = true →
        ∃ a, get_substack_content url hostname now (.ok doc) = .ok a ∧
          a.Title = (if pyStrip h1.text == "" then "Unknown Title" else pyStrip h1.text)) := by
  constructor
  · intro url now hostname doc hart hnone
    unfold get_substack_content
    simp only [hart, if_true]
    refine ⟨_, rfl, ?_⟩
    rw [titleLoopAux_of_none _ _ doc.nodes hnone]
  · intro url now hostname doc pre h1 suffix hart hnodes hpre hq
    unfold get_substack_content
    simp only [hart, if_true]
    refine ⟨_, rfl, ?_⟩
    rw [hnodes, titleLoopAux_found _ _ _ _ _ hpre hq]

/-- Witness for the amended claim C6: a document whose only heading
sits inside the chrome wrapper titles as `Unknown Title`, and a
document with a qualifying heading ` T ` titles as its stripped
text `T`. -/
theorem c6_title_resolution_amended_witness :
    (∃ a, get_substack_content "u" none "t0"
        (.ok ⟨[⟨"h1", [], [["pc-display-flex"]], [["pc-display-flex"]], true, "Ignored"⟩],
              true, none, none, none⟩) = .ok a ∧
      a.Title = "Unknown Title") ∧
    (∃ a, get_substack_content "u" none "t0"
        (.ok ⟨[⟨"h1", [], [], [], true, " T "⟩], true, none, none, none⟩) = .ok a ∧
      a.Title = (if pyStrip " T " == "" then "Unknown Title" else pyStrip " T ")) := by
  constructor
  · exact c6_title_resolution_amended.1 "u" "t0" none
      ⟨[⟨"h1", [], [["pc-display-flex"]], [["pc-display-flex"]], true, "Ignored"⟩],
       true, none, none, none⟩ rfl (by decide)
  · exact c6_title_resolution_amended.2 "u" "t0" none
      ⟨[⟨"h1", [], [], [], true, " T "⟩], true, none, none, none⟩
      [] ⟨"h1", [], [], [], true, " T "⟩ [] rfl rfl (by simp) (by decide)
